import Mathlib

/-!
Shallow embedding of the `pycses` repository (package `cses`): the helper
functions of `src/cses/utils.py`, the pydantic structures of
`src/cses/structures.py`, and the parser/generator of `src/cses/__init__.py`,
together with theorems settling the specification claims.

Python conventions used throughout the embedding:
* Python `//` and `%` are floor division and floor modulus; they are embedded
  as `Int.fdiv` / `Int.fmod`, which have exactly that semantics.
* `datetime.date` values are embedded as their proleptic Gregorian ordinal
  (an `Int`); `(d2 - d1).days` is then ordinal subtraction, which is faithful
  because `date.toordinal` is an order-preserving bijection.
* `datetime.time` is embedded as a record of hour/minute/second; its
  constructor validates the field ranges and raises `ValueError` otherwise,
  embedded as an `Option`-returning smart constructor.
* a raising Python function is embedded as `Option` (result or error) or
  `Except` (result or which exception was raised).
-/

namespace CSES

/-- Python floor division `a // b` (divisors in this code base are positive). -/
def pyDiv (a b : Int) : Int := Int.fdiv a b

/-- Python floor modulus `a % b` (moduli in this code base are positive). -/
def pyMod (a b : Int) : Int := Int.fmod a b

/-- Embedding of `datetime.time`: an already-validated time of day. -/
structure PyTime where
  hour : Nat
  minute : Nat
  second : Nat
deriving DecidableEq

/-- Embedding of the `datetime.time(h, m, s)` constructor: it raises
`ValueError` unless `0 <= h <= 23`, `0 <= m <= 59`, `0 <= s <= 59`. -/
def mkTime (h m s : Int) : Option PyTime :=
  if 0 ≤ h ∧ h ≤ 23 ∧ 0 ≤ m ∧ m ≤ 59 ∧ 0 ≤ s ∧ s ≤ 59 then
    some ⟨h.toNat, m.toNat, s.toNat⟩
  else
    none

/-- `utils.week_num`: `(day - start_day).days // 7 + 1`, with dates as ordinals. -/
def week_num (start_day day : Int) : Int := pyDiv (day - start_day) 7 + 1

/-- Numeric value of an ASCII digit character (`int` applied to it). -/
def charDigit (c : Char) : Nat := c.toNat - 48

/-- Character-class test `lo <= code point <= hi` (codes 48..57 are the ASCII
digits `0`..`9`); embeds the regex's literal ASCII classes `[01]`, `2`,
`[0-3]`, `[0-5]`. -/
def charIn (c : Char) (lo hi : Nat) : Bool := lo ≤ c.toNat && c.toNat ≤ hi

/-- First code points of the 10-character blocks of Unicode general category
Nd (decimal digit numbers, Unicode 15, as shipped with current CPython):
the ASCII digits and every non-ASCII decimal digit script block.  Each block
holds the digits of values 0..9 in order. -/
def ndBlocks : List Nat :=
  [0x30, 0x660, 0x6F0, 0x7C0, 0x966, 0x9E6, 0xA66, 0xAE6, 0xB66, 0xBE6,
   0xC66, 0xCE6, 0xD66, 0xDE6, 0xE50, 0xED0, 0xF20, 0x1040, 0x1090, 0x17E0,
   0x1810, 0x1946, 0x19D0, 0x1A80, 0x1A90, 0x1B50, 0x1BB0, 0x1C40, 0x1C50,
   0xA620, 0xA8D0, 0xA900, 0xA9D0, 0xA9F0, 0xAA50, 0xABF0, 0xFF10,
   0x104A0, 0x10D30, 0x11066, 0x110F0, 0x11136, 0x111D0, 0x112F0, 0x11450,
   0x114D0, 0x11650, 0x116C0, 0x11730, 0x118E0, 0x11950, 0x11C50, 0x11D50,
   0x11DA0, 0x11F50, 0x16A60, 0x16AC0, 0x16B50,
   0x1D7CE, 0x1D7D8, 0x1D7E2, 0x1D7EC, 0x1D7F6,
   0x1E140, 0x1E2F0, 0x1E4F0, 0x1E950, 0x1FBF0]

/-- The regex class `\d` of an un-flagged Python 3 `str` pattern: any Unicode
decimal digit (category Nd), not only ASCII. -/
def isPyDigit (c : Char) : Bool :=
  ndBlocks.any fun b => b ≤ c.toNat && c.toNat ≤ b + 9

/-- The decimal value Python's `int` assigns to a single Unicode decimal
digit character: its offset within its Nd block. -/
def pyDigitVal (c : Char) : Nat :=
  match ndBlocks.find? (fun b => b ≤ c.toNat && c.toNat ≤ b + 9) with
  | some b => c.toNat - b
  | none => 0

/-- The regex alternation `([01]\d|2[0-3])` applied to two characters:
`[01]`, `2` and `[0-3]` are literal ASCII classes, while `\d` matches any
Unicode decimal digit. -/
def matchHour (c0 c1 : Char) : Bool :=
  ((c0 == '0' || c0 == '1') && isPyDigit c1) || (c0 == '2' && charIn c1 48 51)

/-- The regex group `([0-5]\d)` applied to two characters: `[0-5]` is a
literal ASCII class, `\d` matches any Unicode decimal digit. -/
def matchMinSec (c0 c1 : Char) : Bool :=
  charIn c0 48 53 && isPyDigit c1

/-- Worker for `hmsMatch` on the character list of the string; the matched
two-digit groups are converted by `int`, which accepts any Unicode decimal
digits (`pyDigitVal`). -/
def hmsScan : List Char → Option (Nat × Nat × Nat)
  | c0 :: c1 :: c2 :: c3 :: c4 :: c5 :: c6 :: c7 :: _ =>
    if matchHour c0 c1 && c2 == ':' && matchMinSec c3 c4 && c5 == ':' && matchMinSec c6 c7 then
      some (10 * pyDigitVal c0 + pyDigitVal c1,
            10 * pyDigitVal c3 + pyDigitVal c4,
            10 * pyDigitVal c6 + pyDigitVal c7)
    else
      none
  | _ => none

/-- Embedding of `re.match` with the pattern
`([01]\d|2[0-3]):([0-5]\d):([0-5]\d)` of `utils.ensure_time`, returning the
three groups converted by `int`.  `re.match` anchors at the start of the
string only, so characters after the eighth are ignored. -/
def hmsMatch (s : String) : Option (Nat × Nat × Nat) :=
  hmsScan s.data

/-- The union type `str | int | datetime.time` accepted by `utils.ensure_time`. -/
inductive TimeInput where
  | str (s : String)
  | int (n : Int)
  | time (t : PyTime)

/-- Embedding of `utils.ensure_time`.  `none` is a raised `ValueError`:
either the regex reports no match, or the `datetime.time` constructor
rejects an out-of-range field (only possible in the `int` branch, where the
source computes `time(n // 3600, (n // 60) % 60, n % 60)` unchecked). -/
def ensure_time : TimeInput → Option PyTime
  | .str s =>
    match hmsMatch s with
    | some (h, m, sec) => mkTime h m sec
    | none => none
  | .int n => mkTime (pyDiv n 3600) (pyMod (pyDiv n 60) 60) (pyMod n 60)
  | .time t => some t

/-- The ASCII digit character with value `n` (for `n <= 9`). -/
def digitChar (n : Nat) : Char := Char.ofNat (48 + n)

/-- Two-digit zero-padded rendering, as `strftime` fields `%H`, `%M`, `%S`
produce for values below 100. -/
def pad2 (n : Nat) : String := String.mk [digitChar (n / 10), digitChar (n % 10)]

/-- Embedding of `utils.serialize_time`: the string
`any_time.strftime("%H:%M:%S")` that the YAML hook emits. -/
def serialize_time (t : PyTime) : String :=
  pad2 t.hour ++ ":" ++ pad2 t.minute ++ ":" ++ pad2 t.second

/-- `structures.WeekType`. -/
inductive WeekType where
  | all
  | odd
  | even
deriving DecidableEq

/-- `structures.Subject`. -/
structure Subject where
  name : String
  simplified_name : String
  teacher : String
deriving DecidableEq

/-- `structures.Lesson`. -/
structure Lesson where
  subject : Subject
  start_time : PyTime
  end_time : PyTime
deriving DecidableEq

/-- `structures.SingleDaySchedule` (fields in source order). -/
structure SingleDaySchedule where
  enable_day : Int
  classes : List Lesson
  name : String
  weeks : WeekType
deriving DecidableEq

/-- `SingleDaySchedule.is_enabled_on_week`: the dict lookup on `self.weeks`. -/
def is_enabled_on_week (s : SingleDaySchedule) (week : Int) : Bool :=
  match s.weeks with
  | .all => true
  | .odd => pyMod week 2 == 1
  | .even => pyMod week 2 == 0

/-- `SingleDaySchedule.is_enabled_on_day`:
`self.is_enabled_on_week(utils.week_num(start_day, day))`. -/
def is_enabled_on_day (s : SingleDaySchedule) (start_day day : Int) : Bool :=
  is_enabled_on_week s (week_num start_day day)

/-! ### The untyped YAML tree and the parser / generator of `cses/__init__.py`

`CSESParser._parse_data` walks the tree `yaml.safe_load` returned, using only
dictionary lookups (`d[k]`, `d.get(k, default)`) and iteration, appending
plain dictionaries to `self.subjects` / `self.schedules`; the first raised
exception aborts the walk.  `CSESGenerator.generate_cses_data` rebuilds the
tree from the same plain dictionaries.  -/

/-- Untyped YAML value, as `yaml.safe_load` produces: Python `None`, `bool`,
`int`, `str`, `list`, `dict` (keys of CSES documents are strings; a Python
`dict` preserves insertion order and has no duplicate keys). -/
inductive Yaml where
  | null
  | bool (b : Bool)
  | int (n : Int)
  | str (s : String)
  | list (xs : List Yaml)
  | map (kvs : List (String × Yaml))

/-- Which Python exception a parsing step raised. -/
inductive PyError where
  | attributeError
  | typeError
  | keyError (k : String)

/-- Python truthiness (`if not self.data`). -/
def Yaml.truthy : Yaml → Bool
  | .null => false
  | .bool b => b
  | .int n => n != 0
  | .str s => !s.isEmpty
  | .list xs => !xs.isEmpty
  | .map kvs => !kvs.isEmpty

/-- Key lookup in a dictionary's entry list. -/
def assocFind : List (String × Yaml) → String → Option Yaml
  | [], _ => none
  | (k, v) :: rest, key => if k = key then some v else assocFind rest key

/-- Python `d.get(key, default)`; on a non-dict value the attribute access
raises `AttributeError`. -/
def Yaml.pyGet (y : Yaml) (key : String) (default : Yaml) : Except PyError Yaml :=
  match y with
  | .map kvs => .ok ((assocFind kvs key).getD default)
  | _ => .error .attributeError

/-- Python subscript `d[key]` with a string key: `KeyError` when the key is
missing, `TypeError` on any non-dict value. -/
def Yaml.getItem (y : Yaml) (key : String) : Except PyError Yaml :=
  match y with
  | .map kvs =>
    match assocFind kvs key with
    | some v => .ok v
    | none => .error (.keyError key)
  | _ => .error .typeError

/-- Python iteration `for x in y`: lists yield their elements, strings their
one-character substrings, dicts their keys; other values raise `TypeError`. -/
def Yaml.iter : Yaml → Except PyError (List Yaml)
  | .list xs => .ok xs
  | .str s => .ok (s.data.map fun c => .str (String.mk [c]))
  | .map kvs => .ok (kvs.map fun kv => .str kv.1)
  | _ => .error .typeError

/-- The `subject_info` dictionary `_parse_data` appends to `self.subjects`
(keys `name`, `simplified_name`, `teacher`, `room` in that order; the three
optional fields hold Python `None` = `Yaml.null` when absent). -/
structure SubjectInfo where
  name : Yaml
  simplified_name : Yaml
  teacher : Yaml
  room : Yaml

/-- The `class_info` dictionary (keys `subject`, `start_time`, `end_time`). -/
structure ClassInfo where
  subject : Yaml
  start_time : Yaml
  end_time : Yaml

/-- The `schedule_info` dictionary (keys `name`, `enable_day`, `weeks`,
`classes`). -/
structure ScheduleInfo where
  name : Yaml
  enable_day : Yaml
  weeks : Yaml
  classes : List ClassInfo

/-- The parser state `_parse_data` leaves behind: `self.version`,
`self.subjects`, `self.schedules`.  `version` is `Yaml.null` (the `None` set
in `__init__`) when the data was falsy. -/
structure ParseResult where
  version : Yaml
  subjects : List SubjectInfo
  schedules : List ScheduleInfo

/-- One iteration of the `for subject in subjects_data` loop body. -/
def parseSubject (y : Yaml) : Except PyError SubjectInfo :=
  match y.getItem "name" with
  | .error e => .error e
  | .ok name =>
    match y.pyGet "simplified_name" .null with
    | .error e => .error e
    | .ok sn =>
      match y.pyGet "teacher" .null with
      | .error e => .error e
      | .ok teacher =>
        match y.pyGet "room" .null with
        | .error e => .error e
        | .ok room => .ok ⟨name, sn, teacher, room⟩

/-- The `for subject in subjects_data` loop (fail-fast, order-preserving). -/
def parseSubjects : List Yaml → Except PyError (List SubjectInfo)
  | [] => .ok []
  | y :: rest =>
    match parseSubject y with
    | .error e => .error e
    | .ok s =>
      match parseSubjects rest with
      | .error e => .error e
      | .ok ss => .ok (s :: ss)

/-- One iteration of the `for cls in classes_data` loop body. -/
def parseClass (y : Yaml) : Except PyError ClassInfo :=
  match y.getItem "subject" with
  | .error e => .error e
  | .ok subj =>
    match y.getItem "start_time" with
    | .error e => .error e
    | .ok st =>
      match y.getItem "end_time" with
      | .error e => .error e
      | .ok et => .ok ⟨subj, st, et⟩

/-- The `for cls in classes_data` loop (fail-fast, order-preserving). -/
def parseClasses : List Yaml → Except PyError (List ClassInfo)
  | [] => .ok []
  | y :: rest =>
    match parseClass y with
    | .error e => .error e
    | .ok c =>
      match parseClasses rest with
      | .error e => .error e
      | .ok cs => .ok (c :: cs)

/-- One iteration of the `for schedule in schedules_data` loop body. -/
def parseSchedule (y : Yaml) : Except PyError ScheduleInfo :=
  match y.getItem "name" with
  | .error e => .error e
  | .ok name =>
    match y.getItem "enable_day" with
    | .error e => .error e
    | .ok ed =>
      match y.getItem "weeks" with
      | .error e => .error e
      | .ok wk =>
        match y.pyGet "classes" (.list []) with
        | .error e => .error e
        | .ok classesData =>
          match classesData.iter with
          | .error e => .error e
          | .ok items =>
            match parseClasses items with
            | .error e => .error e
            | .ok classes => .ok ⟨name, ed, wk, classes⟩

/-- The `for schedule in schedules_data` loop (fail-fast, order-preserving). -/
def parseSchedules : List Yaml → Except PyError (List ScheduleInfo)
  | [] => .ok []
  | y :: rest =>
    match parseSchedule y with
    | .error e => .error e
    | .ok s =>
      match parseSchedules rest with
      | .error e => .error e
      | .ok ss => .ok (s :: ss)

/-- Embedding of `CSESParser._parse_data` on the loaded tree: falsy data
leaves the initial state (`version = None`, empty lists); otherwise the
version is read with `self.data.get('version', 1)`, then the `subjects` and
`schedules` lists are walked. -/
def parse_data (data : Yaml) : Except PyError ParseResult :=
  if data.truthy then
    match data.pyGet "version" (.int 1) with
    | .error e => .error e
    | .ok version =>
      match data.pyGet "subjects" (.list []) with
      | .error e => .error e
      | .ok subjectsData =>
        match subjectsData.iter with
        | .error e => .error e
        | .ok subjectItems =>
          match parseSubjects subjectItems with
          | .error e => .error e
          | .ok subjects =>
            match data.pyGet "schedules" (.list []) with
            | .error e => .error e
            | .ok schedulesData =>
              match schedulesData.iter with
              | .error e => .error e
              | .ok scheduleItems =>
                match parseSchedules scheduleItems with
                | .error e => .error e
                | .ok schedules => .ok ⟨version, subjects, schedules⟩
  else
    .ok ⟨.null, [], []⟩

/-- The dictionary `CSESGenerator.add_subject` builds (same key order as the
parser's `subject_info`). -/
def subjectDict (s : SubjectInfo) : Yaml :=
  .map [("name", s.name), ("simplified_name", s.simplified_name),
        ("teacher", s.teacher), ("room", s.room)]

/-- A class dictionary as it appears in a generator's schedule (same key
order as the parser's `class_info`). -/
def classDict (c : ClassInfo) : Yaml :=
  .map [("subject", c.subject), ("start_time", c.start_time), ("end_time", c.end_time)]

/-- The dictionary `CSESGenerator.add_schedule` builds. -/
def scheduleDict (s : ScheduleInfo) : Yaml :=
  .map [("name", s.name), ("enable_day", s.enable_day), ("weeks", s.weeks),
        ("classes", .list (s.classes.map classDict))]

/-- Embedding of `CSESGenerator.generate_cses_data` for a generator holding
the given version, subjects and schedules. -/
def generate_cses_data (version : Yaml) (subjects : List SubjectInfo)
    (schedules : List ScheduleInfo) : Yaml :=
  .map [("version", version),
        ("subjects", .list (subjects.map subjectDict)),
        ("schedules", .list (schedules.map scheduleDict))]

/-! ### Concrete documents used by witnesses and counterexamples -/

/-- A well-formed CSES tree: one subject `Math`, one Monday schedule with one
class (the end-to-end scenario of the spec). -/
def exampleTree : Yaml :=
  .map [("version", .int 1),
        ("subjects", .list [.map [("name", .str "Math"), ("simplified_name", .str "M"),
                                  ("teacher", .str "A"), ("room", .str "101")]]),
        ("schedules", .list [.map [("name", .str "Mon"), ("enable_day", .str "mon"),
                                   ("weeks", .str "all"),
                                   ("classes", .list [.map [("subject", .str "Math"),
                                                            ("start_time", .str "08:00:00"),
                                                            ("end_time", .str "08:45:00")]])]])]

/-- The parser state `exampleTree` produces. -/
def exampleResult : ParseResult :=
  ⟨.int 1,
   [⟨.str "Math", .str "M", .str "A", .str "101"⟩],
   [⟨.str "Mon", .str "mon", .str "all",
     [⟨.str "Math", .str "08:00:00", .str "08:45:00"⟩]⟩]⟩

/-- A family of trees whose single class references the subject name `subj`,
while the subject table only contains `Math`. -/
def unknownSubjectTree (subj : String) : Yaml :=
  .map [("version", .int 1),
        ("subjects", .list [.map [("name", .str "Math")]]),
        ("schedules", .list [.map [("name", .str "Mon"), ("enable_day", .str "mon"),
                                   ("weeks", .str "all"),
                                   ("classes", .list [.map [("subject", .str subj),
                                                            ("start_time", .str "08:00:00"),
                                                            ("end_time", .str "08:45:00")]])]])]

/-- The parser state `unknownSubjectTree subj` produces. -/
def unknownSubjectResult (subj : String) : ParseResult :=
  ⟨.int 1,
   [⟨.str "Math", .null, .null, .null⟩],
   [⟨.str "Mon", .str "mon", .str "all",
     [⟨.str subj, .str "08:00:00", .str "08:45:00"⟩]⟩]⟩

/-- A family of trees whose single class carries the given raw `start_time`
and `end_time` values. -/
def timeRangeTree (st et : Yaml) : Yaml :=
  .map [("version", .int 1),
        ("subjects", .list [.map [("name", .str "Math")]]),
        ("schedules", .list [.map [("name", .str "Mon"), ("enable_day", .str "mon"),
                                   ("weeks", .str "all"),
                                   ("classes", .list [.map [("subject", .str "Math"),
                                                            ("start_time", st),
                                                            ("end_time", et)]])]])]

/-- The parser state `timeRangeTree st et` produces. -/
def timeRangeResult (st et : Yaml) : ParseResult :=
  ⟨.int 1,
   [⟨.str "Math", .null, .null, .null⟩],
   [⟨.str "Mon", .str "mon", .str "all", [⟨.str "Math", st, et⟩]⟩]⟩

/-- A family of trees declaring the given raw `version` value. -/
def versionTree (v : Yaml) : Yaml :=
  .map [("version", v), ("subjects", .list []), ("schedules", .list [])]

/-! ## Theorems -/

/-- Rewrite `pyDiv` to Euclidean division (they agree for nonnegative divisor). -/
theorem pyDiv_eq (a b : Int) (hb : 0 ≤ b) : pyDiv a b = a / b :=
  Int.fdiv_eq_ediv a hb

/-- Rewrite `pyMod` to Euclidean modulus (they agree for nonnegative modulus). -/
theorem pyMod_eq (a b : Int) (hb : 0 ≤ b) : pyMod a b = a % b :=
  Int.fmod_eq_emod a hb

/-- C7: `week_num start start = 1`; `week_num start (start+6) = 1`;
`week_num start (start+7) = 2`; for a fixed start date `week_num` is
non-decreasing in the queried day; and in general it equals
`floor((day - start) / 7) + 1`. -/
theorem week_num_spec (start day d1 d2 : Int) :
    week_num start start = 1
  ∧ week_num start (start + 6) = 1
  ∧ week_num start (start + 7) = 2
  ∧ (d1 ≤ d2 → week_num start d1 ≤ week_num start d2)
  ∧ week_num start day = ⌊((day - start : Int) : ℚ) / 7⌋ + 1 := by
  have hdiv : ∀ a : Int, pyDiv a 7 = a / 7 := fun a => pyDiv_eq a 7 (by norm_num)
  refine ⟨?_, ?_, ?_, ?_, ?_⟩
  · simp only [week_num, hdiv]; omega
  · simp only [week_num, hdiv]; omega
  · simp only [week_num, hdiv]; omega
  · intro h; simp only [week_num, hdiv]; omega
  · simp only [week_num, hdiv]
    have h7 : ((7 : ℚ)) = ((7 : ℕ) : ℚ) := by norm_num
    rw [h7, Rat.floor_intCast_div_natCast (day - start) 7]
    norm_num

/-- Witness for C7 at `start = 10`, `day = 24`, `d1 = 11`, `d2 = 19`. -/
theorem week_num_spec_witness :
    week_num 10 10 = 1 ∧ week_num 10 (10 + 6) = 1 ∧ week_num 10 (10 + 7) = 2
  ∧ week_num 10 11 ≤ week_num 10 19
  ∧ week_num 10 24 = ⌊((24 - 10 : Int) : ℚ) / 7⌋ + 1 :=
  let h := week_num_spec 10 24 11 19
  ⟨h.1, h.2.1, h.2.2.1, h.2.2.2.1 (by decide), h.2.2.2.2⟩

/-- C8: on a positive week index, a schedule tagged `odd` is enabled exactly
on odd weeks, one tagged `even` exactly on even weeks, and one tagged `all`
always. -/
theorem is_enabled_on_week_parity (s : SingleDaySchedule) (w : Int) (hw : 0 < w) :
    (s.weeks = WeekType.odd → (is_enabled_on_week s w = true ↔ Odd w))
  ∧ (s.weeks = WeekType.even → (is_enabled_on_week s w = true ↔ Even w))
  ∧ (s.weeks = WeekType.all → is_enabled_on_week s w = true) := by
  have h2 : pyMod w 2 = w % 2 := pyMod_eq w 2 (by norm_num)
  refine ⟨?_, ?_, ?_⟩ <;> intro hweeks <;>
    simp [is_enabled_on_week, hweeks, h2, Int.odd_iff, Int.even_iff]

/-- Witness for C8: an `odd` schedule is enabled on week 3. -/
theorem is_enabled_on_week_parity_witness :
    is_enabled_on_week ⟨1, [], "Mon", WeekType.odd⟩ 3 = true :=
  ((is_enabled_on_week_parity ⟨1, [], "Mon", WeekType.odd⟩ 3 (by decide)).1 rfl).mpr
    (by decide)

/-- C9: `is_enabled_on_day` is exactly `is_enabled_on_week` of
`week_num start_day day`; in particular the result never depends on
`enable_day` (the weekday is not compared), and the function is pure. -/
theorem is_enabled_on_day_spec (s : SingleDaySchedule) (start_day day : Int) :
    is_enabled_on_day s start_day day = is_enabled_on_week s (week_num start_day day)
  ∧ ∀ e : Int,
      is_enabled_on_day ⟨e, s.classes, s.name, s.weeks⟩ start_day day
        = is_enabled_on_day s start_day day :=
  ⟨rfl, fun _ => rfl⟩

/-- C10: on an integer input, `ensure_time` succeeds exactly on
`0 <= n <= 86399`, yielding hour `n // 3600`, minute `(n // 60) % 60`,
second `n % 60`; any other integer makes the `datetime.time` constructor
raise `ValueError` because the computed hour leaves 0..23. -/
theorem ensure_time_int_spec (n : Int) :
    (0 ≤ n → n ≤ 86399 →
      ensure_time (.int n)
        = some ⟨(n / 3600).toNat, ((n / 60) % 60).toNat, (n % 60).toNat⟩)
  ∧ (n < 0 ∨ 86400 ≤ n → ensure_time (.int n) = none) := by
  have h1 : pyDiv n 3600 = n / 3600 := pyDiv_eq n 3600 (by norm_num)
  have h2 : pyMod (pyDiv n 60) 60 = (n / 60) % 60 := by
    rw [pyDiv_eq n 60 (by norm_num), pyMod_eq (n / 60) 60 (by norm_num)]
  have h3 : pyMod n 60 = n % 60 := pyMod_eq n 60 (by norm_num)
  constructor
  · intro hn0 hn1
    simp only [ensure_time, mkTime, h1, h2, h3]
    rw [if_pos]
    constructor <;> omega
  · intro hn
    simp only [ensure_time, mkTime, h1, h2, h3]
    rw [if_neg]
    omega

/-- Witness for C10 at `n = 36610` (= `10:10:10`) and `n = -1`. -/
theorem ensure_time_int_spec_witness :
    ensure_time (TimeInput.int 36610)
      = some ⟨((36610 : Int) / 3600).toNat, (((36610 : Int) / 60) % 60).toNat,
              ((36610 : Int) % 60).toNat⟩
  ∧ ensure_time (TimeInput.int (-1)) = none :=
  ⟨(ensure_time_int_spec 36610).1 (by decide) (by decide),
   (ensure_time_int_spec (-1)).2 (Or.inl (by decide))⟩

/-! ### Character arithmetic for the time strings -/

theorem toNat_digitChar (d : Nat) (hd : d ≤ 9) : (digitChar d).toNat = 48 + d := by
  interval_cases d <;> decide

theorem charDigit_digitChar (d : Nat) (hd : d ≤ 9) : charDigit (digitChar d) = d := by
  have h := toNat_digitChar d hd
  unfold charDigit
  omega

theorem digitChar_inv (c : Char) (h1 : 48 ≤ c.toNat) (h2 : c.toNat ≤ 57) :
    digitChar (charDigit c) = c := by
  unfold digitChar charDigit
  have h : 48 + (c.toNat - 48) = c.toNat := by omega
  rw [h, Char.ofNat_toNat]

theorem data_hms (h m sec : Nat) (rest : String) :
    (pad2 h ++ ":" ++ pad2 m ++ ":" ++ pad2 sec ++ rest).data
      = digitChar (h / 10) :: digitChar (h % 10) :: ':'
        :: digitChar (m / 10) :: digitChar (m % 10) :: ':'
        :: digitChar (sec / 10) :: digitChar (sec % 10) :: rest.data := rfl

theorem isPyDigit_ascii (c : Char) (h1 : 48 ≤ c.toNat) (h2 : c.toNat ≤ 57) :
    isPyDigit c = true := by
  simp only [isPyDigit, ndBlocks, List.any_cons, List.any_nil, Bool.or_eq_true,
    Bool.and_eq_true, decide_eq_true_eq, Bool.false_eq_true, or_false]
  exact Or.inl ⟨h1, by omega⟩

theorem isPyDigit_latin (c : Char) (hc : c.toNat ≤ 127) (h : isPyDigit c = true) :
    48 ≤ c.toNat ∧ c.toNat ≤ 57 := by
  simp only [isPyDigit, ndBlocks, List.any_cons, List.any_nil, Bool.or_eq_true,
    Bool.and_eq_true, decide_eq_true_eq, Bool.false_eq_true, or_false] at h
  omega

theorem pyDigitVal_ascii (c : Char) (h1 : 48 ≤ c.toNat) (h2 : c.toNat ≤ 57) :
    pyDigitVal c = charDigit c := by
  have hp : (decide (48 ≤ c.toNat) && decide (c.toNat ≤ 48 + 9)) = true := by
    simp only [Bool.and_eq_true, decide_eq_true_eq]
    omega
  unfold pyDigitVal ndBlocks
  rw [List.find?_cons]
  simp only [hp]
  rfl

theorem pyDigitVal_digitChar (d : Nat) (hd : d ≤ 9) : pyDigitVal (digitChar d) = d := by
  have h := toNat_digitChar d hd
  rw [pyDigitVal_ascii _ (by omega) (by omega)]
  exact charDigit_digitChar d hd

theorem matchHour_digit (h : Nat) (hh : h ≤ 23) :
    matchHour (digitChar (h / 10)) (digitChar (h % 10)) = true := by
  interval_cases h <;> decide

theorem matchMinSec_digit (m : Nat) (hm : m ≤ 59) :
    matchMinSec (digitChar (m / 10)) (digitChar (m % 10)) = true := by
  have h1 := toNat_digitChar (m / 10) (by omega)
  have h2 := toNat_digitChar (m % 10) (by omega)
  simp only [matchMinSec, charIn, Bool.and_eq_true, decide_eq_true_eq]
  exact ⟨by omega, isPyDigit_ascii _ (by omega) (by omega)⟩

theorem mkTime_nat (h m sec : Nat) (hh : h ≤ 23) (hm : m ≤ 59) (hs : sec ≤ 59) :
    mkTime (↑h) (↑m) (↑sec) = some ⟨h, m, sec⟩ := by
  unfold mkTime
  rw [if_pos (by omega)]
  simp

theorem hmsMatch_render (h m sec : Nat) (rest : String)
    (hh : h ≤ 23) (hm : m ≤ 59) (hs : sec ≤ 59) :
    hmsMatch (pad2 h ++ ":" ++ pad2 m ++ ":" ++ pad2 sec ++ rest) = some (h, m, sec) := by
  unfold hmsMatch
  rw [data_hms]
  simp only [hmsScan, matchHour_digit h hh, matchMinSec_digit m hm, matchMinSec_digit sec hs,
    beq_self_eq_true, Bool.and_true, Bool.true_and, if_true]
  rw [pyDigitVal_digitChar (h / 10) (by omega), pyDigitVal_digitChar (h % 10) (by omega),
    pyDigitVal_digitChar (m / 10) (by omega), pyDigitVal_digitChar (m % 10) (by omega),
    pyDigitVal_digitChar (sec / 10) (by omega), pyDigitVal_digitChar (sec % 10) (by omega)]
  have e1 : 10 * (h / 10) + h % 10 = h := by omega
  have e2 : 10 * (m / 10) + m % 10 = m := by omega
  have e3 : 10 * (sec / 10) + sec % 10 = sec := by omega
  rw [e1, e2, e3]

theorem ensure_time_render (h m sec : Nat) (rest : String)
    (hh : h ≤ 23) (hm : m ≤ 59) (hs : sec ≤ 59) :
    ensure_time (.str (pad2 h ++ ":" ++ pad2 m ++ ":" ++ pad2 sec ++ rest))
      = some ⟨h, m, sec⟩ := by
  simp only [ensure_time, hmsMatch_render h m sec rest hh hm hs]
  exact mkTime_nat h m sec hh hm hs

theorem matchHour_inv (c0 c1 : Char) (hc1 : c1.toNat ≤ 127) (hg : matchHour c0 c1 = true) :
    48 ≤ c0.toNat ∧ c0.toNat ≤ 57 ∧ 48 ≤ c1.toNat ∧ c1.toNat ≤ 57
  ∧ 10 * charDigit c0 + charDigit c1 ≤ 23 := by
  simp only [matchHour, charIn, Bool.or_eq_true, Bool.and_eq_true, beq_iff_eq,
    decide_eq_true_eq] at hg
  have e0 : ('0' : Char).toNat = 48 := by decide
  have e1 : ('1' : Char).toNat = 49 := by decide
  have e2 : ('2' : Char).toNat = 50 := by decide
  unfold charDigit
  rcases hg with ⟨hc0, hdig⟩ | ⟨hc0, hc1a, hc1b⟩
  · obtain ⟨hb1, hb2⟩ := isPyDigit_latin c1 hc1 hdig
    rcases hc0 with hc0 | hc0 <;> subst hc0 <;> simp only [e0, e1] <;> omega
  · subst hc0
    simp only [e2]
    omega

theorem matchMinSec_inv (c0 c1 : Char) (hc1 : c1.toNat ≤ 127) (hg : matchMinSec c0 c1 = true) :
    48 ≤ c0.toNat ∧ c0.toNat ≤ 57 ∧ 48 ≤ c1.toNat ∧ c1.toNat ≤ 57
  ∧ 10 * charDigit c0 + charDigit c1 ≤ 59 := by
  simp only [matchMinSec, charIn, Bool.and_eq_true, decide_eq_true_eq] at hg
  obtain ⟨⟨h0a, h0b⟩, hdig⟩ := hg
  obtain ⟨h1a, h1b⟩ := isPyDigit_latin c1 hc1 hdig
  unfold charDigit
  omega

theorem pad2_chars (c0 c1 : Char) (h0a : 48 ≤ c0.toNat) (h0b : c0.toNat ≤ 57)
    (h1a : 48 ≤ c1.toNat) (h1b : c1.toNat ≤ 57) :
    pad2 (10 * charDigit c0 + charDigit c1) = String.mk [c0, c1] := by
  unfold pad2
  have ha : (10 * charDigit c0 + charDigit c1) / 10 = charDigit c0 := by
    unfold charDigit; omega
  have hb : (10 * charDigit c0 + charDigit c1) % 10 = charDigit c1 := by
    unfold charDigit; omega
  rw [ha, hb, digitChar_inv c0 h0a h0b, digitChar_inv c1 h1a h1b]

theorem hmsMatch_inv (s : String) (h m sec : Nat)
    (hascii : ∀ c ∈ s.data, c.toNat ≤ 127)
    (hmm : hmsMatch s = some (h, m, sec)) :
    h ≤ 23 ∧ m ≤ 59 ∧ sec ≤ 59
  ∧ ∃ rest, s = pad2 h ++ ":" ++ pad2 m ++ ":" ++ pad2 sec ++ rest := by
  unfold hmsMatch at hmm
  rcases hd : s.data with _ |
    ⟨c0, _ | ⟨c1, _ | ⟨c2, _ | ⟨c3, _ | ⟨c4, _ | ⟨c5, _ | ⟨c6, _ | ⟨c7, restChars⟩⟩⟩⟩⟩⟩⟩⟩ <;>
    rw [hd] at hmm <;> simp only [hmsScan] at hmm
  · exact Option.noConfusion hmm
  · exact Option.noConfusion hmm
  · exact Option.noConfusion hmm
  · exact Option.noConfusion hmm
  · exact Option.noConfusion hmm
  · exact Option.noConfusion hmm
  · exact Option.noConfusion hmm
  · exact Option.noConfusion hmm
  · have a1 : c1.toNat ≤ 127 := hascii c1 (by rw [hd]; simp)
    have a4 : c4.toNat ≤ 127 := hascii c4 (by rw [hd]; simp)
    have a7 : c7.toNat ≤ 127 := hascii c7 (by rw [hd]; simp)
    split at hmm
    · rename_i hg
      simp only [Option.some.injEq, Prod.mk.injEq] at hmm
      obtain ⟨eh, em, es⟩ := hmm
      simp only [Bool.and_eq_true, beq_iff_eq] at hg
      obtain ⟨⟨⟨⟨hg1, hg2⟩, hg3⟩, hg4⟩, hg5⟩ := hg
      subst hg2
      subst hg4
      obtain ⟨b0a, b0b, b1a, b1b, bh⟩ := matchHour_inv c0 c1 a1 hg1
      obtain ⟨b3a, b3b, b4a, b4b, bm⟩ := matchMinSec_inv c3 c4 a4 hg3
      obtain ⟨b6a, b6b, b7a, b7b, bs⟩ := matchMinSec_inv c6 c7 a7 hg5
      subst eh
      subst em
      subst es
      rw [pyDigitVal_ascii c0 b0a b0b, pyDigitVal_ascii c1 b1a b1b,
        pyDigitVal_ascii c3 b3a b3b, pyDigitVal_ascii c4 b4a b4b,
        pyDigitVal_ascii c6 b6a b6b, pyDigitVal_ascii c7 b7a b7b]
      refine ⟨bh, bm, bs, String.mk restChars, ?_⟩
      apply String.ext
      rw [hd]
      rw [show (pad2 (10 * charDigit c0 + charDigit c1) ++ ":"
            ++ pad2 (10 * charDigit c3 + charDigit c4) ++ ":"
            ++ pad2 (10 * charDigit c6 + charDigit c7) ++ String.mk restChars).data
          = (pad2 (10 * charDigit c0 + charDigit c1)).data ++ [':']
            ++ (pad2 (10 * charDigit c3 + charDigit c4)).data ++ [':']
            ++ (pad2 (10 * charDigit c6 + charDigit c7)).data ++ restChars from rfl]
      rw [pad2_chars c0 c1 b0a b0b b1a b1b, pad2_chars c3 c4 b3a b3b b4a b4b,
        pad2_chars c6 c7 b6a b6b b7a b7b]
      rfl
    · exact Option.noConfusion hmm

/-- C3 counterexample: `ensure_time` accepts `"23:59:59 tail"` — a string
with trailing characters after a valid `HH:MM:SS`, 13 characters and so not
of the exact 8-character form — and also accepts `"1٣:00:00"`, whose second
hour digit is the non-ASCII Arabic-Indic digit three (`\d` matches any
Unicode decimal digit and `int` converts it), instead of raising
`InvalidTimeFormat` as the claim demands for both. -/
theorem ensure_time_trailing_accepted :
    ensure_time (TimeInput.str "23:59:59 tail") = some ⟨23, 59, 59⟩
  ∧ ("23:59:59 tail").length = 13
  ∧ ensure_time (TimeInput.str "1٣:00:00") = some ⟨13, 0, 0⟩ := by
  refine ⟨by decide, by decide, by decide⟩

/-- C3 amended: `ensure_time` accepts every string that STARTS with a valid
zero-padded `HH:MM:SS` (`HH` 00..23, `MM`, `SS` 00..59) — trailing
characters are ignored because `re.match` anchors only at the start of the
string — returning that prefix's time; the `\d` positions further admit
non-ASCII Unicode decimal digits of the same values, so, restricted to ASCII
strings, the accepted set is exactly the strings with such a zero-padded
prefix and every other ASCII string (in particular any with extra leading
characters) raises the `ValueError` (`Invalid time format ...`). -/
theorem ensure_time_str_spec (s : String) :
    (∀ h m sec rest, h ≤ 23 → m ≤ 59 → sec ≤ 59 →
       s = pad2 h ++ ":" ++ pad2 m ++ ":" ++ pad2 sec ++ rest →
       ensure_time (TimeInput.str s) = some ⟨h, m, sec⟩)
  ∧ ((∀ c ∈ s.data, c.toNat ≤ 127) →
       ((∃ t, ensure_time (TimeInput.str s) = some t) ↔
         ∃ h m sec rest, h ≤ 23 ∧ m ≤ 59 ∧ sec ≤ 59
           ∧ s = pad2 h ++ ":" ++ pad2 m ++ ":" ++ pad2 sec ++ rest)) := by
  constructor
  · rintro h m sec rest bh bm bs rfl
    exact ensure_time_render h m sec rest bh bm bs
  · intro hascii
    constructor
    · rintro ⟨t, ht⟩
      rcases hmm : hmsMatch s with _ | ⟨⟨h, m, sec⟩⟩
      · simp [ensure_time, hmm] at ht
      · obtain ⟨bh, bm, bs, rest, hrest⟩ := hmsMatch_inv s h m sec hascii hmm
        exact ⟨h, m, sec, rest, bh, bm, bs, hrest⟩
    · rintro ⟨h, m, sec, rest, bh, bm, bs, rfl⟩
      exact ⟨⟨h, m, sec⟩, ensure_time_render h m sec rest bh bm bs⟩

/-- Witness for the amended C3 at `s = "10:10:10tail"`. -/
theorem ensure_time_str_spec_witness :
    ensure_time (TimeInput.str "10:10:10tail") = some ⟨10, 10, 10⟩ :=
  (ensure_time_str_spec "10:10:10tail").1 10 10 10 "tail"
    (by decide) (by decide) (by decide) (by decide)

/-- C6: for every string of the exact zero-padded form `HH:MM:SS` with
`HH` 00..23 and `MM`, `SS` 00..59, coercing it with `ensure_time` succeeds
and `serialize_time` (the `strftime("%H:%M:%S")` hook) maps the result back
to the original string. -/
theorem serialize_ensure_roundtrip (s : String) (h m sec : Nat)
    (hh : h ≤ 23) (hm : m ≤ 59) (hs : sec ≤ 59)
    (hse : s = pad2 h ++ ":" ++ pad2 m ++ ":" ++ pad2 sec) :
    ∃ t, ensure_time (TimeInput.str s) = some t ∧ serialize_time t = s := by
  refine ⟨⟨h, m, sec⟩, ?_, ?_⟩
  · have e : s = pad2 h ++ ":" ++ pad2 m ++ ":" ++ pad2 sec ++ "" := by
      rw [hse, String.append_empty]
    rw [e]
    exact ensure_time_render h m sec "" hh hm hs
  · rw [hse]
    rfl

/-- Witness for C6 at `s = "08:05:30"`. -/
theorem serialize_ensure_roundtrip_witness :
    ∃ t, ensure_time (TimeInput.str "08:05:30") = some t
      ∧ serialize_time t = "08:05:30" :=
  serialize_ensure_roundtrip "08:05:30" 8 5 30
    (by decide) (by decide) (by decide) (by decide)

/-! ### Parser / generator round trip -/

theorem parseSubject_dict (s : SubjectInfo) : parseSubject (subjectDict s) = .ok s := rfl

theorem parseSubjects_map (l : List SubjectInfo) :
    parseSubjects (l.map subjectDict) = .ok l := by
  induction l with
  | nil => rfl
  | cons s rest ih => simp only [List.map_cons, parseSubjects, parseSubject_dict, ih]

theorem parseClass_dict (c : ClassInfo) : parseClass (classDict c) = .ok c := rfl

theorem parseClasses_map (l : List ClassInfo) :
    parseClasses (l.map classDict) = .ok l := by
  induction l with
  | nil => rfl
  | cons c rest ih => simp only [List.map_cons, parseClasses, parseClass_dict, ih]

theorem parseSchedule_dict (s : ScheduleInfo) : parseSchedule (scheduleDict s) = .ok s := by
  have hc := parseClasses_map s.classes
  show (match parseClasses (s.classes.map classDict) with
        | .error e => (.error e : Except PyError ScheduleInfo)
        | .ok classes => .ok ⟨s.name, s.enable_day, s.weeks, classes⟩) = .ok s
  rw [hc]

theorem parseSchedules_map (l : List ScheduleInfo) :
    parseSchedules (l.map scheduleDict) = .ok l := by
  induction l with
  | nil => rfl
  | cons s rest ih => simp only [List.map_cons, parseSchedules, parseSchedule_dict, ih]

/-- C1: a parser state obtained from any successful parse is reproduced
exactly — same version, same subjects with all fields, same schedules in
order with their classes in order — by parsing the tree a generator holding
that state produces with `generate_cses_data`. -/
theorem parse_generate_roundtrip (t : Yaml) (r : ParseResult)
    (hparse : parse_data t = .ok r) :
    parse_data (generate_cses_data r.version r.subjects r.schedules) = .ok r := by
  obtain ⟨v, subs, scheds⟩ := r
  have hs := parseSubjects_map subs
  have hh := parseSchedules_map scheds
  show (match parseSubjects (subs.map subjectDict) with
        | .error e => (.error e : Except PyError ParseResult)
        | .ok subjects =>
          match parseSchedules (scheds.map scheduleDict) with
          | .error e => .error e
          | .ok schedules => .ok ⟨v, subjects, schedules⟩) = .ok ⟨v, subs, scheds⟩
  rw [hs, hh]

/-- Witness for C1 on the one-subject, one-schedule example document. -/
theorem parse_generate_roundtrip_witness :
    parse_data (generate_cses_data exampleResult.version exampleResult.subjects
      exampleResult.schedules) = .ok exampleResult :=
  parse_generate_roundtrip exampleTree exampleResult rfl

/-- C2 counterexample: the tree whose only class references subject
`History` while the subject table holds only `Math` parses SUCCESSFULLY —
`_parse_data` raises no `UnknownSubject` error and returns the full state,
contradicting the claim that the build fails. -/
theorem parse_unknown_subject_counterexample :
    parse_data (unknownSubjectTree "History") = .ok (unknownSubjectResult "History") := rfl

/-- C2 amended: `_parse_data` performs no referential-integrity check at all:
whatever name a class's `subject` field holds — present in `subjects` or not —
the parse succeeds and copies the class verbatim. -/
theorem parse_unknown_subject (subj : String) :
    parse_data (unknownSubjectTree subj) = .ok (unknownSubjectResult subj) := rfl

/-- C4 counterexample: a class whose `start_time` equals its `end_time`
(both `08:00:00`) parses SUCCESSFULLY — `_parse_data` raises no
`InvalidTimeRange` error, contradicting the claim that the build fails. -/
theorem parse_equal_times_counterexample :
    parse_data (timeRangeTree (.str "08:00:00") (.str "08:00:00"))
      = .ok (timeRangeResult (.str "08:00:00") (.str "08:00:00")) := rfl

/-- C4 amended: `_parse_data` never compares the two times: it copies the raw
`start_time` and `end_time` values verbatim, whatever they are (equal,
reversed, or not times at all), and the build succeeds. -/
theorem parse_copies_times (st et : Yaml) :
    parse_data (timeRangeTree st et) = .ok (timeRangeResult st et) := rfl

/-- C5 counterexample: a tree declaring `version: 2` parses SUCCESSFULLY with
`self.version = 2` — `_parse_data` raises no `UnsupportedVersion` error,
contradicting the claim that the build fails. -/
theorem parse_version_two_counterexample :
    parse_data (versionTree (.int 2)) = .ok ⟨.int 2, [], []⟩ := rfl

/-- C5 amended: `_parse_data` stores whatever value the `version` key holds
without validating it (`self.version = self.data.get('version', 1)`); the
build never fails on the version. -/
theorem parse_keeps_version (v : Yaml) :
    parse_data (versionTree v) = .ok ⟨v, [], []⟩ := rfl

end CSES
